import Mathlib

/-!
Verification of the liquidity-module batch swap engine.

The development shallowly embeds `x/liquidity/keeper/swap.go`
(`SwapExecution`, `UpdateState`) and `x/liquidity/keeper/grpc_query.go`
(the gRPC query handlers).

Arithmetic model: the SDK decimal type (`sdk.Dec`, 18 fractional digits)
is represented by its scaled integer numerator, so the decimal value `v`
is the integer `v * 10^18`.  `sdk.Int` coin amounts are plain integers.
`ToDec` multiplies by `10^18`; `TruncateInt` divides by `10^18` rounding
toward zero, which is `Int.tdiv`.  Coin denominations are elided: within
one order every coin (offer, remaining, exchanged, reserved fee) carries
the offer denomination, so coins are represented by their amounts and
`NewCoin` / `Add` / `Equal` / `IsGTE` act on amounts.
-/

/-- Scale factor of the SDK decimal type: 18 fractional digits. -/
def decUnit : ℤ := 10 ^ 18

/-- Embedding of `sdk.Int.ToDec`: scale an integer amount to a decimal. -/
def intToDec (n : ℤ) : ℤ := n * decUnit

/-- Embedding of `sdk.Dec.TruncateInt`: drop the fractional digits, rounding
toward zero. -/
def decTruncateInt (d : ℤ) : ℤ := Int.tdiv d decUnit

/-- Embedding of `sdk.Dec.Quo` as the spec fixes it (§4.A): division rounds
toward zero. -/
def decQuo (a b : ℤ) : ℤ := Int.tdiv (a * decUnit) b

/-- Embedding of `sdk.Dec.Mul` as the spec fixes it (§4.A): multiplication
rounds toward zero. -/
def decMul (a b : ℤ) : ℤ := Int.tdiv (a * b) decUnit

/-- Modelled from the spec (§4.A): `types.CoinSafeSubAmount` is not under
`src/`; the spec describes it as the single safe coin subtraction "variant
that clamps at zero".  Amount-level embedding of that clamping subtraction. -/
def CoinSafeSubAmount (amt sub : ℤ) : ℤ := max (amt - sub) 0

/-- Modelled from the spec (§3): the user-submitted swap message carried by a
swap message state (`offer_coin` original amount and `order_price` limit; the
denomination fields are elided as explained in the file header). -/
structure SwapMsg where
  offerCoin : ℤ
  orderPrice : ℤ
deriving DecidableEq, Repr

/-- Modelled from the spec (§3): `types.SwapMsgState`, the persistent record
of one swap intent, with its amounts, expiry and lifecycle flags. -/
structure SwapMsgState where
  msgIndex : ℕ
  executed : Bool
  succeeded : Bool
  toBeDeleted : Bool
  orderExpiryHeight : ℤ
  exchangedOfferCoin : ℤ
  remainingOfferCoin : ℤ
  reservedOfferCoinFee : ℤ
  msg : SwapMsg
deriving DecidableEq, Repr

/-- Swap direction of an order (x offered for y, or y offered for x). -/
inductive OrderDirection where
  | XtoY
  | YtoX
deriving DecidableEq, Repr

/-- Modelled from the spec (§3): `types.MatchResult`, one fill produced by the
matcher.  All decimal amounts are in the scaled representation. -/
structure MatchResult where
  orderMsgIndex : ℕ
  orderDirection : OrderDirection
  transactedCoinAmt : ℤ
  exchangedDemandCoinAmt : ℤ
  offerCoinFeeAmt : ℤ
  batchMsg : SwapMsgState
deriving DecidableEq, Repr

/-- Classification of one match result by `UpdateState`
(`swap.go` lines 137, 154, 174): the `if / else if / else` chain that picks
the full, off-by-one-decimal, or fractional branch. -/
inductive MatchKind where
  | full
  | offByOne
  | fractional
deriving DecidableEq, Repr

/-- The branch guard chain of `UpdateState` for one match result.
Full match when the transacted decimal amount equals the original offer or
the remaining offer (in decimal); off-by-one when the original or remaining
offer minus the transacted amount equals `1.0` in decimal; fractional
otherwise. -/
def classifyMatch (m : MatchResult) : MatchKind :=
  if intToDec m.batchMsg.msg.offerCoin = m.transactedCoinAmt ∨
      intToDec m.batchMsg.remainingOfferCoin = m.transactedCoinAmt then
    MatchKind.full
  else if intToDec m.batchMsg.msg.offerCoin - m.transactedCoinAmt = decUnit ∨
      intToDec m.batchMsg.remainingOfferCoin - m.transactedCoinAmt = decUnit then
    MatchKind.offByOne
  else
    MatchKind.fractional

/-- The loop body of `UpdateState` for one match result (`swap.go`
lines 134-183 for XtoY, 184-236 for YtoX; the two bodies update the order
state identically).  Returns the updated swap message state together with two
flags: whether the off-by-one branch ran (it adds `1.0` to the decimal error
accumulator of its direction) and whether the fractional branch ran (it
increments the fractional counter of its direction).  `none` models the
`panic("remaining not matched ...")` consistency aborts. -/
def applyMatch (m : MatchResult) : Option (SwapMsgState × Bool × Bool) :=
  let b := m.batchMsg
  let t := decTruncateInt m.transactedCoinAmt
  let f := decTruncateInt m.offerCoinFeeAmt
  match classifyMatch m with
  | MatchKind.full =>
    let exch := b.exchangedOfferCoin + t
    let rem := CoinSafeSubAmount b.remainingOfferCoin t
    let fee := CoinSafeSubAmount b.reservedOfferCoinFee f
    if rem + exch > b.msg.offerCoin ∨ rem ≠ 0 ∨ 2 ≤ fee then none
    else some ({ b with
      exchangedOfferCoin := exch
      remainingOfferCoin := rem
      reservedOfferCoinFee := fee
      succeeded := true
      toBeDeleted := true }, false, false)
  | MatchKind.offByOne =>
    let exch := b.exchangedOfferCoin + t
    let rem0 := CoinSafeSubAmount b.remainingOfferCoin t
    let rem := if rem0 = 1 then 0 else rem0
    let fee := CoinSafeSubAmount b.reservedOfferCoinFee f
    if rem + exch > b.msg.offerCoin ∨ rem ≠ 0 ∨ 2 ≤ fee then none
    else some ({ b with
      exchangedOfferCoin := exch
      remainingOfferCoin := rem
      reservedOfferCoinFee := fee
      succeeded := true
      toBeDeleted := true }, true, false)
  | MatchKind.fractional =>
    let exch := b.exchangedOfferCoin + t
    let rem := CoinSafeSubAmount b.remainingOfferCoin t
    let fee := CoinSafeSubAmount b.reservedOfferCoinFee f
    some ({ b with
      exchangedOfferCoin := exch
      remainingOfferCoin := rem
      reservedOfferCoinFee := fee
      succeeded := true
      toBeDeleted := false }, false, true)

/-- The first loop of `UpdateState` (over `matchResultXtoY`): applies
`applyMatch` to every XtoY match result, accumulating the pool deltas
(`poolXdelta += transacted`, `poolYdelta -= exchangedDemand`), the fractional
counter and the decimal error of the x side (`+1.0` per off-by-one match).
`none` propagates a panic from any match. -/
def processXtoY : List MatchResult → Option (List SwapMsgState × ℤ × ℤ × ℕ × ℤ)
  | [] => some ([], 0, 0, 0, 0)
  | m :: rest =>
    match applyMatch m with
    | none => none
    | some (s, obo, fr) =>
      match processXtoY rest with
      | none => none
      | some (us, dx, dy, fc, de) =>
        some (s :: us, m.transactedCoinAmt + dx, dy - m.exchangedDemandCoinAmt,
          (if fr then 1 else 0) + fc, (if obo then decUnit else 0) + de)

/-- The second loop of `UpdateState` (over `matchResultYtoX`): symmetric to
`processXtoY` with `poolXdelta -= exchangedDemand`, `poolYdelta += transacted`
and the decimal error accumulated on the y side. -/
def processYtoX : List MatchResult → Option (List SwapMsgState × ℤ × ℤ × ℕ × ℤ)
  | [] => some ([], 0, 0, 0, 0)
  | m :: rest =>
    match applyMatch m with
    | none => none
    | some (s, obo, fr) =>
      match processYtoX rest with
      | none => none
      | some (us, dx, dy, fc, de) =>
        some (s :: us, dx - m.exchangedDemandCoinAmt, m.transactedCoinAmt + dy,
          (if fr then 1 else 0) + fc, (if obo then decUnit else 0) + de)

/-- Return value of `UpdateState` (`swap.go` line 245): the updated order
states of the matched XtoY and YtoX orders, the updated reserves, the pool
deltas, the fractional counters and the accumulated decimal errors. -/
structure UpdateStateResult where
  XtoY : List SwapMsgState
  YtoX : List SwapMsgState
  X : ℤ
  Y : ℤ
  poolXdelta : ℤ
  poolYdelta : ℤ
  fractionalCntX : ℕ
  fractionalCntY : ℕ
  decimalErrorX : ℤ
  decimalErrorY : ℤ
deriving DecidableEq, Repr

/-- Embedding of `Keeper.UpdateState` (`swap.go` lines 118-246): run both
match loops, offset the accumulated decimal errors into the pool deltas, and
apply the deltas to the reserves.  `X`, `Y` are the reserves in decimal.
`none` models a panic inside either loop.  (The stable re-sorting of the
order lists at the top of the Go function only permutes the two input order
lists; the per-match updates and the accumulated sums are unaffected, and the
embedding keeps each returned state list in match-result order.) -/
def UpdateState (X Y : ℤ) (matchResultXtoY matchResultYtoX : List MatchResult) :
    Option UpdateStateResult :=
  match processXtoY matchResultXtoY, processYtoX matchResultYtoX with
  | some (uX, dx1, dy1, fcx, dex), some (uY, dx2, dy2, fcy, dey) =>
    let poolXdelta := dx1 + dx2 + dex
    let poolYdelta := dy1 + dy2 + dey
    some ⟨uX, uY, X + poolXdelta, Y + poolYdelta, poolXdelta, poolYdelta,
      fcx, fcy, dex, dey⟩
  | _, _ => none

/-- Whether an order is still in-limit at the swap price (§4.B-§4.D, §8
invariant 4): an XtoY order participates when its limit price is at least the
swap price, a YtoX order when its limit price is at most the swap price. -/
def inLimit (dir : OrderDirection) (orderPrice swapPrice : ℤ) : Bool :=
  match dir with
  | OrderDirection.XtoY => swapPrice ≤ orderPrice
  | OrderDirection.YtoX => orderPrice ≤ swapPrice

/-- Conversion of a transacted offer amount into the demand coin at a given
price (§4.D): divide by the price for XtoY, multiply for YtoX. -/
def exchangedAtPrice (dir : OrderDirection) (transacted price : ℤ) : ℤ :=
  match dir with
  | OrderDirection.XtoY => decQuo transacted price
  | OrderDirection.YtoX => decMul transacted price

/-- Modelled from the spec (§4.D): `types.FindOrderMatch` is not under
`src/`.  Walk the one-side order list; every in-limit order is filled fully
while executable volume remains, else fractionally with the leftover volume;
the received amount is the transacted amount converted at the single swap
price, and the offer-side fee is `transacted * fee_rate / 2`.  Returns the
match results and the side's pool deltas. -/
def FindOrderMatch (dir : OrderDirection) (orders : List SwapMsgState)
    (executableAmt swapPrice feeRate : ℤ) : List MatchResult × ℤ × ℤ :=
  match orders with
  | [] => ([], 0, 0)
  | o :: rest =>
    if inLimit dir o.msg.orderPrice swapPrice then
      let remDec := intToDec o.remainingOfferCoin
      let transacted := if remDec ≤ executableAmt then remDec else executableAmt
      let leftover := if remDec ≤ executableAmt then executableAmt - remDec else 0
      let exchanged := exchangedAtPrice dir transacted swapPrice
      let fee := Int.tdiv (decMul transacted feeRate) 2
      let r : MatchResult :=
        ⟨o.msgIndex, dir, transacted, exchanged, fee, o⟩
      let (rs, dx, dy) := FindOrderMatch dir rest leftover swapPrice feeRate
      match dir with
      | OrderDirection.XtoY => (r :: rs, transacted + dx, dy - exchanged)
      | OrderDirection.YtoX => (r :: rs, dx - exchanged, transacted + dy)
    else
      FindOrderMatch dir rest executableAmt swapPrice feeRate

/-- Modelled from the spec (§3): `types.BatchResult`, the outcome of price
discovery.  Match types are numbered with `NoMatch = 0`, as used by the
`result.MatchType == 0` early return in `SwapExecution`. -/
structure BatchResult where
  matchType : ℕ
  swapPrice : ℤ
  EX : ℤ
  EY : ℤ
deriving DecidableEq, Repr

/-- Environment of one `SwapExecution` run: the store snapshot it reads (the
not-yet-processed swap message states and the two pool reserve amounts) and
the outputs of the collaborators that are outside `src/` (pool lookup,
`MakeOrderMap` / `SortOrderBook`, `orderBook.Match`, the executed-book
`Validate`, and `TransactAndRefundSwapLiquidityPool`).  The swap fee rate
feeds the spec-modelled matcher. -/
structure SwapEnv where
  swapMsgStates : List SwapMsgState
  poolFound : Bool
  reserveX : ℤ
  reserveY : ℤ
  XtoY : List SwapMsgState
  YtoX : List SwapMsgState
  result : BatchResult
  feeRate : ℤ
  validateExecuted : ℤ → Bool
  transactSucceeds : Bool
  settledStates : List SwapMsgState
  settledReserveX : ℤ
  settledReserveY : ℤ

/-- The in-place `sms.Executed = true` loop of `SwapExecution`
(`swap.go` lines 24-27). -/
def markExecuted (l : List SwapMsgState) : List SwapMsgState :=
  l.map (fun s => { s with executed := true })

/-- The duplicate-index scan over the combined match results
(`swap.go` lines 93-98): walking the list with a set of seen order message
indices, report whether any index repeats. -/
def hasDupIndex : List MatchResult → List ℕ → Bool
  | [], _ => false
  | m :: rest, seen =>
    if m.orderMsgIndex ∈ seen then true
    else hasDupIndex rest (m.orderMsgIndex :: seen)

/-- The two matcher calls of `SwapExecution` (`swap.go` lines 55-61): both
directions are matched against the one `result.SwapPrice` from price
discovery, with the executable volumes `EX` and `EY`. -/
def swapMatchResults (env : SwapEnv) : List MatchResult × List MatchResult :=
  ((FindOrderMatch OrderDirection.XtoY env.XtoY env.result.EX
      env.result.swapPrice env.feeRate).1,
   (FindOrderMatch OrderDirection.YtoX env.YtoX env.result.EY
      env.result.swapPrice env.feeRate).1)

/-- Outcome of `SwapExecution`: a normal return with the executed message
count, a returned error, or a panic (consensus-fatal abort). -/
inductive SwapOutcome where
  | ok (count : ℕ)
  | err (msg : String)
  | panic (msg : String)
deriving DecidableEq, Repr

/-- Embedding of `Keeper.SwapExecution` (`swap.go` lines 12-116): its control
flow over the environment.  Returns the outcome together with the persisted
swap message states and the pool reserve amounts after the run.  Early paths:
empty batch returns `(0, nil)` untouched; missing pool returns
`ErrPoolNotExists` untouched; all states are marked executed before matching;
`MatchType == 0` returns the executed count with reserves untouched.
Otherwise `UpdateState` runs (a `none` is a panic), the re-built executed
order book is validated at the last price `X'/Y'`, the combined match results
are scanned for duplicate order message indices, and settlement runs (its
error is panicked); the settled store is collaborator-determined. -/
def SwapExecution (env : SwapEnv) : SwapOutcome × List SwapMsgState × ℤ × ℤ :=
  if env.swapMsgStates = [] then
    (SwapOutcome.ok 0, env.swapMsgStates, env.reserveX, env.reserveY)
  else if env.poolFound = false then
    (SwapOutcome.err "pool not exists", env.swapMsgStates, env.reserveX, env.reserveY)
  else
    let executedStates := markExecuted env.swapMsgStates
    let n := env.swapMsgStates.length
    if env.result.matchType = 0 then
      (SwapOutcome.ok n, executedStates, env.reserveX, env.reserveY)
    else
      let mX := (swapMatchResults env).1
      let mY := (swapMatchResults env).2
      match UpdateState (intToDec env.reserveX) (intToDec env.reserveY) mX mY with
      | none =>
        (SwapOutcome.panic "remaining not matched", executedStates,
          env.reserveX, env.reserveY)
      | some r =>
        let lastPrice := decQuo r.X r.Y
        if env.validateExecuted lastPrice = false then
          (SwapOutcome.panic "order book invalidity", executedStates,
            env.reserveX, env.reserveY)
        else if hasDupIndex (mX ++ mY) [] then
          (SwapOutcome.panic "duplicated match order", executedStates,
            env.reserveX, env.reserveY)
        else if env.transactSucceeds = false then
          (SwapOutcome.panic "transact and refund failed", executedStates,
            env.reserveX, env.reserveY)
        else
          (SwapOutcome.ok n, env.settledStates,
            env.settledReserveX, env.settledReserveY)

/-- Modelled from the spec (§3, §6): a stored liquidity pool, reduced to the
key the query handlers use. -/
structure Pool where
  id : ℕ
deriving DecidableEq, Repr

/-- State read by the gRPC query handlers: the stored pools. -/
structure QueryKeeper where
  pools : List Pool
deriving DecidableEq, Repr

/-- Modelled from the spec (§6, keyed CRUD storage): `GetLiquidityPool`
looks a pool up by its id. -/
def GetLiquidityPool (k : QueryKeeper) (poolId : ℕ) : Option Pool :=
  k.pools.find? (fun p => p.id == poolId)

/-- gRPC status code of an error returned by a query handler (the message
strings are elided). -/
inductive GrpcCode where
  | invalidArgument
  | notFound
deriving DecidableEq, Repr

/-- Request of the `LiquidityPool` query. -/
structure QueryLiquidityPoolRequest where
  poolId : ℕ
deriving DecidableEq, Repr

/-- Response of the `LiquidityPool` query. -/
structure QueryLiquidityPoolResponse where
  liquidityPool : Pool
deriving DecidableEq, Repr

/-- Embedding of `Keeper.LiquidityPool` (`grpc_query.go` lines 15-28): a nil
request is an InvalidArgument error, a missing pool is a NotFound error,
otherwise the pool is returned with a nil error.  A Go nil pointer is
`none`. -/
def LiquidityPool (k : QueryKeeper) (req : Option QueryLiquidityPoolRequest) :
    Option QueryLiquidityPoolResponse × Option GrpcCode :=
  match req with
  | none => (none, some GrpcCode.invalidArgument)
  | some r =>
    match GetLiquidityPool k r.poolId with
    | none => (none, some GrpcCode.notFound)
    | some pool => (some ⟨pool⟩, none)

/-- Request of the `LiquidityPools` query. -/
structure QueryLiquidityPoolsRequest where
deriving DecidableEq, Repr

/-- Response of the `LiquidityPools` query. -/
structure QueryLiquidityPoolsResponse where
deriving DecidableEq, Repr

/-- Embedding of the stub `Keeper.LiquidityPools` (`grpc_query.go`
lines 31-33): `return nil, nil`. -/
def LiquidityPools (_ : QueryKeeper) (_ : Option QueryLiquidityPoolsRequest) :
    Option QueryLiquidityPoolsResponse × Option GrpcCode :=
  (none, none)

/-- Request of the `LiquidityPoolBatch` query. -/
structure QueryLiquidityPoolBatchRequest where
deriving DecidableEq, Repr

/-- Response of the `LiquidityPoolBatch` query. -/
structure QueryLiquidityPoolBatchResponse where
deriving DecidableEq, Repr

/-- Embedding of the stub `Keeper.LiquidityPoolBatch` (`grpc_query.go`
lines 35-37): `return nil, nil`. -/
def LiquidityPoolBatch (_ : QueryKeeper) (_ : Option QueryLiquidityPoolBatchRequest) :
    Option QueryLiquidityPoolBatchResponse × Option GrpcCode :=
  (none, none)

/-- Request of the `PoolBatchSwapMsgs` query. -/
structure QueryPoolBatchSwapMsgsRequest where
deriving DecidableEq, Repr

/-- Response of the `PoolBatchSwapMsgs` query. -/
structure QueryPoolBatchSwapMsgsResponse where
deriving DecidableEq, Repr

/-- Embedding of the stub `Keeper.PoolBatchSwapMsgs` (`grpc_query.go`
lines 39-41): `return nil, nil`. -/
def PoolBatchSwapMsgs (_ : QueryKeeper) (_ : Option QueryPoolBatchSwapMsgsRequest) :
    Option QueryPoolBatchSwapMsgsResponse × Option GrpcCode :=
  (none, none)

/-- Request of the `PoolBatchDepositMsgs` query. -/
structure QueryPoolBatchDepositMsgsRequest where
deriving DecidableEq, Repr

/-- Response of the `PoolBatchDepositMsgs` query. -/
structure QueryPoolBatchDepositMsgsResponse where
deriving DecidableEq, Repr

/-- Embedding of the stub `Keeper.PoolBatchDepositMsgs` (`grpc_query.go`
lines 43-45): `return nil, nil`. -/
def PoolBatchDepositMsgs (_ : QueryKeeper) (_ : Option QueryPoolBatchDepositMsgsRequest) :
    Option QueryPoolBatchDepositMsgsResponse × Option GrpcCode :=
  (none, none)

/-- Request of the `PoolBatchWithdrawMsgs` query. -/
structure QueryPoolBatchWithdrawMsgsRequest where
deriving DecidableEq, Repr

/-- Response of the `PoolBatchWithdrawMsgs` query. -/
structure QueryPoolBatchWithdrawMsgsResponse where
deriving DecidableEq, Repr

/-- Embedding of the stub `Keeper.PoolBatchWithdrawMsgs` (`grpc_query.go`
lines 47-49): `return nil, nil`. -/
def PoolBatchWithdrawMsgs (_ : QueryKeeper) (_ : Option QueryPoolBatchWithdrawMsgsRequest) :
    Option QueryPoolBatchWithdrawMsgsResponse × Option GrpcCode :=
  (none, none)

/-- Request of the `Params` query. -/
structure QueryParamsRequest where
deriving DecidableEq, Repr

/-- Response of the `Params` query. -/
structure QueryParamsResponse where
deriving DecidableEq, Repr

/-- Embedding of the stub `Keeper.Params` (`grpc_query.go` lines 51-53):
`return nil, nil`. -/
def Params (_ : QueryKeeper) (_ : Option QueryParamsRequest) :
    Option QueryParamsResponse × Option GrpcCode :=
  (none, none)

/-! ### Helper lemmas -/

theorem decUnit_pos : (0 : ℤ) < decUnit := by norm_num [decUnit]

theorem decTruncateInt_nonneg {t : ℤ} (ht : 0 ≤ t) : 0 ≤ decTruncateInt t :=
  Int.tdiv_nonneg ht (le_of_lt decUnit_pos)

theorem decTruncateInt_le {t : ℤ} (c : ℤ) (ht : 0 ≤ t) (h : t ≤ intToDec c) :
    decTruncateInt t ≤ c := by
  unfold decTruncateInt
  rw [Int.tdiv_eq_ediv ht (le_of_lt decUnit_pos)]
  calc t / decUnit ≤ c * decUnit / decUnit := Int.ediv_le_ediv decUnit_pos (by
        unfold intToDec at h; exact h)
    _ = c := Int.mul_ediv_cancel c (ne_of_gt decUnit_pos)

/-! ### Theorems for the claims -/

/-- C8: the `LiquidityPools`, `LiquidityPoolBatch`, `PoolBatchSwapMsgs`,
`PoolBatchDepositMsgs`, `PoolBatchWithdrawMsgs` and `Params` query handlers
return an empty result (nil response and nil error) for every request,
unconditionally. -/
theorem grpc_stub_queries_empty :
    ∀ (k : QueryKeeper)
      (r1 : Option QueryLiquidityPoolsRequest)
      (r2 : Option QueryLiquidityPoolBatchRequest)
      (r3 : Option QueryPoolBatchSwapMsgsRequest)
      (r4 : Option QueryPoolBatchDepositMsgsRequest)
      (r5 : Option QueryPoolBatchWithdrawMsgsRequest)
      (r6 : Option QueryParamsRequest),
      LiquidityPools k r1 = (none, none) ∧
      LiquidityPoolBatch k r2 = (none, none) ∧
      PoolBatchSwapMsgs k r3 = (none, none) ∧
      PoolBatchDepositMsgs k r4 = (none, none) ∧
      PoolBatchWithdrawMsgs k r5 = (none, none) ∧
      Params k r6 = (none, none) := by
  intro k r1 r2 r3 r4 r5 r6
  exact ⟨rfl, rfl, rfl, rfl, rfl, rfl⟩

/-- C10: the `LiquidityPool` handler returns an InvalidArgument error for a
nil request, a NotFound error exactly when no stored pool has the requested
pool id, and otherwise the found pool with a nil error.  The handler is a
pure function of the keeper state, so it mutates nothing. -/
theorem liquidityPool_query_behavior :
    ∀ (k : QueryKeeper),
      LiquidityPool k none = (none, some GrpcCode.invalidArgument) ∧
      ∀ (req : QueryLiquidityPoolRequest),
        ((LiquidityPool k (some req)).2 = some GrpcCode.notFound ↔
          ∀ p ∈ k.pools, p.id ≠ req.poolId) ∧
        ∀ p, GetLiquidityPool k req.poolId = some p →
          LiquidityPool k (some req) = (some ⟨p⟩, none) := by
  intro k
  refine ⟨rfl, fun req => ⟨?_, fun p hp => by simp [LiquidityPool, hp]⟩⟩
  cases hfind : GetLiquidityPool k req.poolId with
  | none =>
    have hnone : ∀ p ∈ k.pools, p.id ≠ req.poolId := by
      intro p hp
      have := List.find?_eq_none.mp hfind p hp
      simpa using this
    simp only [LiquidityPool, hfind]
    simp
    exact hnone
  | some p =>
    have hmem : p ∈ k.pools := List.mem_of_find?_eq_some hfind
    have hid : p.id = req.poolId := by
      have := List.find?_some hfind
      simpa using this
    simp only [LiquidityPool, hfind]
    constructor
    · intro h; cases h
    · intro h; exact absurd hid (h p hmem)

/-- C10 witness: on a store holding pool 7, querying pool 7 returns it. -/
theorem liquidityPool_query_behavior_witness :
    LiquidityPool ⟨[⟨7⟩]⟩ (some ⟨7⟩) = (some ⟨⟨7⟩⟩, none) :=
  ((liquidityPool_query_behavior ⟨[⟨7⟩]⟩).2 ⟨7⟩).2 ⟨7⟩ (by decide)

/-- C9: with no unprocessed swap message states `SwapExecution` returns
`(0, nil)` with the store untouched (in particular nothing depends on the
pool), and with unprocessed messages but no pool it returns
`ErrPoolNotExists` without marking any message executed. -/
theorem swapExecution_early_returns :
    ∀ (env : SwapEnv),
      (env.swapMsgStates = [] →
        SwapExecution env =
          (SwapOutcome.ok 0, env.swapMsgStates, env.reserveX, env.reserveY)) ∧
      (env.swapMsgStates ≠ [] → env.poolFound = false →
        SwapExecution env =
          (SwapOutcome.err "pool not exists", env.swapMsgStates,
            env.reserveX, env.reserveY)) := by
  intro env
  constructor
  · intro h
    simp [SwapExecution, h]
  · intro h1 h2
    simp [SwapExecution, h1, h2]

/-! ### Concrete sample data for the witnesses -/

/-- A pending order: 10 units offered, 10 still remaining, 1 unit of
reserved fee, limit price 2.0. -/
def sampleState : SwapMsgState :=
  ⟨0, false, false, false, 100, 0, 10, 1, ⟨10, intToDec 2⟩⟩

/-- An environment whose batch is empty. -/
def envEmpty : SwapEnv :=
  ⟨[], true, 1000, 1000, [], [], ⟨0, 0, 0, 0⟩, 0, fun _ => true, true, [], 1000, 1000⟩

/-- An environment with a pending order but no pool. -/
def envNoPool : SwapEnv :=
  ⟨[sampleState], false, 1000, 1000, [], [], ⟨0, 0, 0, 0⟩, 0, fun _ => true,
    true, [], 1000, 1000⟩

/-- An environment with a pending order whose price discovery found no
match. -/
def envNoMatch : SwapEnv :=
  ⟨[sampleState], true, 1000, 1000, [sampleState], [], ⟨0, intToDec 1, 0, 0⟩,
    0, fun _ => true, true, [], 1000, 1000⟩

/-- An environment with a pending order and a match at price 1.0 with
executable x volume 10.0. -/
def envMatch : SwapEnv :=
  ⟨[sampleState], true, 1000, 1000, [sampleState], [],
    ⟨1, intToDec 1, intToDec 10, 0⟩, 0, fun _ => true, true, [], 1000, 1000⟩

/-- C9 witness: the early returns evaluated on an empty batch and on a batch
with a missing pool. -/
theorem swapExecution_early_returns_witness :
    SwapExecution envEmpty =
      (SwapOutcome.ok 0, envEmpty.swapMsgStates, envEmpty.reserveX, envEmpty.reserveY) ∧
    SwapExecution envNoPool =
      (SwapOutcome.err "pool not exists", envNoPool.swapMsgStates,
        envNoPool.reserveX, envNoPool.reserveY) :=
  ⟨(swapExecution_early_returns envEmpty).1 rfl,
   (swapExecution_early_returns envNoPool).2 (by decide) rfl⟩

/-- C7: when price discovery reports match type none (`MatchType == 0`),
`SwapExecution` returns the executed message count and persists exactly the
input order states with only the `executed` flag flipped to true: the
remaining offer, exchanged offer and reserved fee of every order, and the
pool reserves, are unchanged. -/
theorem swapExecution_no_match_frame :
    ∀ (env : SwapEnv), env.swapMsgStates ≠ [] → env.poolFound = true →
      env.result.matchType = 0 →
      SwapExecution env =
        (SwapOutcome.ok env.swapMsgStates.length,
          env.swapMsgStates.map (fun s => { s with executed := true }),
          env.reserveX, env.reserveY) := by
  intro env h1 h2 h3
  simp [SwapExecution, markExecuted, h1, h2, h3]

/-- C7 witness: the no-match frame evaluated on a concrete environment. -/
theorem swapExecution_no_match_frame_witness :
    SwapExecution envNoMatch =
      (SwapOutcome.ok envNoMatch.swapMsgStates.length,
        envNoMatch.swapMsgStates.map (fun s => { s with executed := true }),
        envNoMatch.reserveX, envNoMatch.reserveY) :=
  swapExecution_no_match_frame envNoMatch (by decide) rfl rfl

/-- C3: a match result taken by the full-match branch of `UpdateState` that
does not abort leaves the order with remaining offer exactly zero, residual
reserved fee at most 1 smallest unit, and both the succeeded and the
to-be-deleted flags set. -/
theorem updateState_full_match_postconditions :
    ∀ (m : MatchResult), classifyMatch m = MatchKind.full →
      ∀ out, applyMatch m = some out →
        out.1.remainingOfferCoin = 0 ∧
        out.1.reservedOfferCoinFee ≤ 1 ∧
        out.1.succeeded = true ∧
        out.1.toBeDeleted = true := by
  intro m hcl out h
  simp only [applyMatch, hcl] at h
  split at h
  · exact absurd h (by simp)
  · rename_i hguard
    push_neg at hguard
    obtain ⟨-, hrem, hfee⟩ := hguard
    cases h
    dsimp only
    refine ⟨hrem, by omega, rfl, rfl⟩

/-- The concrete full match used by the witnesses: the whole remaining offer
of `sampleState` (10 units) transacted, fee 1.0. -/
def mFull : MatchResult :=
  ⟨0, OrderDirection.XtoY, intToDec 10, intToDec 5, intToDec 1, sampleState⟩

/-- The state of `sampleState` after settling `mFull`. -/
def mFullUpdated : SwapMsgState :=
  ⟨0, false, true, true, 100, 10, 0, 0, ⟨10, intToDec 2⟩⟩

/-- C3 witness: the full-match postconditions evaluated on `mFull`. -/
theorem updateState_full_match_postconditions_witness :
    (mFullUpdated, false, false).1.remainingOfferCoin = 0 ∧
    (mFullUpdated, false, false).1.reservedOfferCoinFee ≤ 1 ∧
    (mFullUpdated, false, false).1.succeeded = true ∧
    (mFullUpdated, false, false).1.toBeDeleted = true :=
  updateState_full_match_postconditions mFull (by decide)
    (mFullUpdated, false, false) (by decide)

/-- C2: order conservation through `UpdateState`.  For a match result whose
order satisfies `remaining + exchanged ≤ original offer` before the update,
with a nonnegative transacted amount that is at most the remaining offer in
decimal, the updated order returned by the (non-aborting) loop body still
satisfies `remaining + exchanged ≤ original offer` — in all three
classification branches, including the fractional branch, which has no
explicit check. -/
theorem updateState_order_conservation :
    ∀ (m : MatchResult),
      m.batchMsg.remainingOfferCoin + m.batchMsg.exchangedOfferCoin ≤
        m.batchMsg.msg.offerCoin →
      0 ≤ m.transactedCoinAmt →
      m.transactedCoinAmt ≤ intToDec m.batchMsg.remainingOfferCoin →
      ∀ out, applyMatch m = some out →
        out.1.remainingOfferCoin + out.1.exchangedOfferCoin ≤
          out.1.msg.offerCoin := by
  intro m hc ht0 htr out h
  have htle : decTruncateInt m.transactedCoinAmt ≤ m.batchMsg.remainingOfferCoin :=
    decTruncateInt_le _ ht0 htr
  have htnn : 0 ≤ decTruncateInt m.transactedCoinAmt := decTruncateInt_nonneg ht0
  cases hcl : classifyMatch m
  case full =>
    simp only [applyMatch, hcl] at h
    split at h
    · exact absurd h (by simp)
    · rename_i hguard
      push_neg at hguard
      cases h
      dsimp only
      exact hguard.1
  case offByOne =>
    simp only [applyMatch, hcl] at h
    split at h <;> split at h
    · exact absurd h (by simp)
    · rename_i hguard
      push_neg at hguard
      cases h
      dsimp only
      exact hguard.1
    · exact absurd h (by simp)
    · rename_i hguard
      push_neg at hguard
      cases h
      dsimp only
      exact hguard.1
  case fractional =>
    simp only [applyMatch, hcl] at h
    cases h
    dsimp only
    simp only [CoinSafeSubAmount]
    rw [max_eq_left (by omega)]
    omega

/-- The concrete fractional match used by the witnesses: 4 of the 10
remaining units of `sampleState` transacted. -/
def mFrac : MatchResult :=
  ⟨1, OrderDirection.XtoY, intToDec 4, intToDec 4, intToDec 1, sampleState⟩

/-- The state of `sampleState` after settling `mFrac`. -/
def mFracUpdated : SwapMsgState :=
  ⟨0, false, true, false, 100, 4, 6, 0, ⟨10, intToDec 2⟩⟩

/-- C2 witness: order conservation evaluated on the fractional match
`mFrac`. -/
theorem updateState_order_conservation_witness :
    (mFracUpdated, false, true).1.remainingOfferCoin +
      (mFracUpdated, false, true).1.exchangedOfferCoin ≤
      (mFracUpdated, false, true).1.msg.offerCoin :=
  updateState_order_conservation mFrac (by decide) (by decide) (by decide)
    (mFracUpdated, false, true) (by decide)

/-- The delta accumulators of the XtoY loop are the sum of transacted amounts
and minus the sum of exchanged demand amounts of its match results. -/
theorem processXtoY_deltas :
    ∀ (l : List MatchResult) us dx dy fc de,
      processXtoY l = some (us, dx, dy, fc, de) →
      dx = (l.map MatchResult.transactedCoinAmt).sum ∧
      dy = -(l.map MatchResult.exchangedDemandCoinAmt).sum := by
  intro l
  induction l with
  | nil =>
    intro us dx dy fc de h
    simp only [processXtoY] at h
    cases h
    simp
  | cons m rest ih =>
    intro us dx dy fc de h
    simp only [processXtoY] at h
    cases hA : applyMatch m with
    | none => rw [hA] at h; cases h
    | some v =>
      obtain ⟨s, obo, fr⟩ := v
      rw [hA] at h
      cases hR : processXtoY rest with
      | none => rw [hR] at h; cases h
      | some w =>
        obtain ⟨us', dx', dy', fc', de'⟩ := w
        rw [hR] at h
        cases h
        obtain ⟨h1, h2⟩ := ih us' dx' dy' fc' de' hR
        constructor
        · simp [h1]
        · simp [h2]; ring

/-- The delta accumulators of the YtoX loop are minus the sum of exchanged
demand amounts and the sum of transacted amounts of its match results. -/
theorem processYtoX_deltas :
    ∀ (l : List MatchResult) us dx dy fc de,
      processYtoX l = some (us, dx, dy, fc, de) →
      dx = -(l.map MatchResult.exchangedDemandCoinAmt).sum ∧
      dy = (l.map MatchResult.transactedCoinAmt).sum := by
  intro l
  induction l with
  | nil =>
    intro us dx dy fc de h
    simp only [processYtoX] at h
    cases h
    simp
  | cons m rest ih =>
    intro us dx dy fc de h
    simp only [processYtoX] at h
    cases hA : applyMatch m with
    | none => rw [hA] at h; cases h
    | some v =>
      obtain ⟨s, obo, fr⟩ := v
      rw [hA] at h
      cases hR : processYtoX rest with
      | none => rw [hR] at h; cases h
      | some w =>
        obtain ⟨us', dx', dy', fc', de'⟩ := w
        rw [hR] at h
        cases h
        obtain ⟨h1, h2⟩ := ih us' dx' dy' fc' de' hR
        constructor
        · simp [h1]; ring
        · simp [h2]

/-- C5: when `UpdateState` does not abort, the returned x pool delta is the
sum of the transacted amounts of the XtoY fills minus the sum of the
exchanged demand amounts of the YtoX fills plus the accumulated
`decimal_error_x`; symmetrically for the y delta; and the returned reserves
are exactly the input reserves shifted by the deltas. -/
theorem updateState_pool_deltas :
    ∀ (X Y : ℤ) (mX mY : List MatchResult) (r : UpdateStateResult),
      UpdateState X Y mX mY = some r →
      r.poolXdelta = (mX.map MatchResult.transactedCoinAmt).sum
          - (mY.map MatchResult.exchangedDemandCoinAmt).sum + r.decimalErrorX ∧
      r.poolYdelta = (mY.map MatchResult.transactedCoinAmt).sum
          - (mX.map MatchResult.exchangedDemandCoinAmt).sum + r.decimalErrorY ∧
      r.X = X + r.poolXdelta ∧
      r.Y = Y + r.poolYdelta := by
  intro X Y mX mY r h
  simp only [UpdateState] at h
  cases hX : processXtoY mX with
  | none => rw [hX] at h; cases h
  | some vX =>
    obtain ⟨uX, dx1, dy1, fcx, dex⟩ := vX
    rw [hX] at h
    cases hY : processYtoX mY with
    | none => rw [hY] at h; cases h
    | some vY =>
      obtain ⟨uY, dx2, dy2, fcy, dey⟩ := vY
      rw [hY] at h
      cases h
      obtain ⟨hx1, hy1⟩ := processXtoY_deltas mX uX dx1 dy1 fcx dex hX
      obtain ⟨hx2, hy2⟩ := processYtoX_deltas mY uY dx2 dy2 fcy dey hY
      dsimp only
      refine ⟨?_, ?_, rfl, rfl⟩
      · rw [hx1, hx2]; ring
      · rw [hy1, hy2]; ring

/-- The result of `UpdateState` on reserves (1000, 1000) with the single full
match `mFull` and no YtoX matches. -/
def rFull : UpdateStateResult :=
  ⟨[mFullUpdated], [], intToDec 1010, intToDec 995, intToDec 10,
    -(intToDec 5), 0, 0, 0, 0⟩

/-- C5 witness: the pool-delta accounting evaluated on the concrete run of
`UpdateState` with the single match `mFull`. -/
theorem updateState_pool_deltas_witness :
    rFull.poolXdelta = ([mFull].map MatchResult.transactedCoinAmt).sum
        - (([] : List MatchResult).map MatchResult.exchangedDemandCoinAmt).sum
        + rFull.decimalErrorX ∧
    rFull.poolYdelta = (([] : List MatchResult).map MatchResult.transactedCoinAmt).sum
        - ([mFull].map MatchResult.exchangedDemandCoinAmt).sum
        + rFull.decimalErrorY ∧
    rFull.X = intToDec 1000 + rFull.poolXdelta ∧
    rFull.Y = intToDec 1000 + rFull.poolYdelta :=
  updateState_pool_deltas (intToDec 1000) (intToDec 1000) [mFull] [] rFull
    (by decide)

theorem decUnit_eq : decUnit = 1000000000000000000 := by norm_num [decUnit]

/-- C4: for a match result whose order satisfies the standing order
invariants (nonnegative exchanged amount, `remaining + exchanged ≤ offer`,
transacted at most the remaining offer in decimal), `UpdateState` classifies
it as off-by-one-decimal exactly when the remaining offer minus the
transacted amount equals `1.0` in decimal; and whenever the off-by-one branch
runs without aborting it reports `+1.0` into the decimal error accumulator of
its direction (`decimal_error_x` in the XtoY loop, `decimal_error_y` in the
YtoX loop), clamps a remaining offer that ended up as 1 integer unit down to
zero, and otherwise applies the same updates as the full-match branch
(exchanged incremented by the truncated transacted amount, fee decremented by
the truncated fee amount, succeeded and to-be-deleted set). -/
theorem updateState_off_by_one_classification :
    ∀ (m : MatchResult),
      (0 ≤ m.batchMsg.exchangedOfferCoin →
        m.batchMsg.remainingOfferCoin + m.batchMsg.exchangedOfferCoin ≤
          m.batchMsg.msg.offerCoin →
        m.transactedCoinAmt ≤ intToDec m.batchMsg.remainingOfferCoin →
        (classifyMatch m = MatchKind.offByOne ↔
          intToDec m.batchMsg.remainingOfferCoin - m.transactedCoinAmt = decUnit)) ∧
      (classifyMatch m = MatchKind.offByOne →
        ∀ s' obo fr, applyMatch m = some (s', obo, fr) →
          obo = true ∧ fr = false ∧
          s'.exchangedOfferCoin =
            m.batchMsg.exchangedOfferCoin + decTruncateInt m.transactedCoinAmt ∧
          s'.remainingOfferCoin =
            (if CoinSafeSubAmount m.batchMsg.remainingOfferCoin
                (decTruncateInt m.transactedCoinAmt) = 1 then 0
              else CoinSafeSubAmount m.batchMsg.remainingOfferCoin
                (decTruncateInt m.transactedCoinAmt)) ∧
          s'.reservedOfferCoinFee =
            CoinSafeSubAmount m.batchMsg.reservedOfferCoinFee
              (decTruncateInt m.offerCoinFeeAmt) ∧
          s'.succeeded = true ∧ s'.toBeDeleted = true ∧
          processXtoY [m] = some ([s'], m.transactedCoinAmt,
            -m.exchangedDemandCoinAmt, 0, decUnit) ∧
          processYtoX [m] = some ([s'], -m.exchangedDemandCoinAmt,
            m.transactedCoinAmt, 0, decUnit)) := by
  intro m
  constructor
  · intro hexch h1 htr
    simp only [intToDec, decUnit_eq] at htr ⊢
    constructor
    · intro hcl
      unfold classifyMatch at hcl
      split_ifs at hcl with hfull hobo
      push_neg at hfull
      simp only [intToDec, decUnit_eq] at hfull hobo
      rcases hobo with hb | hb <;> omega
    · intro hb
      unfold classifyMatch
      rw [if_neg, if_pos]
      · right
        simp only [intToDec, decUnit_eq]
        omega
      · push_neg
        simp only [intToDec, decUnit_eq]
        refine ⟨by omega, by omega⟩
  · intro hcl s' obo fr h
    have happ := h
    simp only [applyMatch, hcl] at h
    split at h <;> split at h
    · exact absurd h (by simp)
    · rename_i hone hguard
      cases h
      refine ⟨rfl, rfl, rfl, by rw [if_pos hone], rfl, rfl, rfl, ?_, ?_⟩
      · simp [processXtoY, happ]
      · simp [processYtoX, happ]
    · exact absurd h (by simp)
    · rename_i hone hguard
      cases h
      refine ⟨rfl, rfl, rfl, by rw [if_neg hone], rfl, rfl, rfl, ?_, ?_⟩
      · simp [processXtoY, happ]
      · simp [processYtoX, happ]

/-- The concrete off-by-one match used by the witnesses: 9.0 of the 10
remaining units of `sampleState` transacted, so remaining minus transacted is
exactly 1.0 and the leftover single unit is clamped to zero. -/
def mObo : MatchResult :=
  ⟨2, OrderDirection.XtoY, intToDec 9, intToDec 9, intToDec 1, sampleState⟩

/-- The state of `sampleState` after settling `mObo`. -/
def mOboUpdated : SwapMsgState :=
  ⟨0, false, true, true, 100, 9, 0, 0, ⟨10, intToDec 2⟩⟩

/-- C4 witness: the off-by-one classification and branch effects evaluated on
the concrete match `mObo`. -/
theorem updateState_off_by_one_classification_witness :
    (classifyMatch mObo = MatchKind.offByOne ↔
      intToDec mObo.batchMsg.remainingOfferCoin - mObo.transactedCoinAmt = decUnit) ∧
    (true = true ∧ false = false ∧
      mOboUpdated.exchangedOfferCoin =
        mObo.batchMsg.exchangedOfferCoin + decTruncateInt mObo.transactedCoinAmt ∧
      mOboUpdated.remainingOfferCoin =
        (if CoinSafeSubAmount mObo.batchMsg.remainingOfferCoin
            (decTruncateInt mObo.transactedCoinAmt) = 1 then 0
          else CoinSafeSubAmount mObo.batchMsg.remainingOfferCoin
            (decTruncateInt mObo.transactedCoinAmt)) ∧
      mOboUpdated.reservedOfferCoinFee =
        CoinSafeSubAmount mObo.batchMsg.reservedOfferCoinFee
          (decTruncateInt mObo.offerCoinFeeAmt) ∧
      mOboUpdated.succeeded = true ∧ mOboUpdated.toBeDeleted = true ∧
      processXtoY [mObo] = some ([mOboUpdated], mObo.transactedCoinAmt,
        -mObo.exchangedDemandCoinAmt, 0, decUnit) ∧
      processYtoX [mObo] = some ([mOboUpdated], -mObo.exchangedDemandCoinAmt,
        mObo.transactedCoinAmt, 0, decUnit)) :=
  ⟨((updateState_off_by_one_classification mObo).1 (by decide) (by decide)
      (by decide)),
   ((updateState_off_by_one_classification mObo).2 (by decide)
      mOboUpdated true false (by decide))⟩

/-- Every match result produced by `FindOrderMatch` carries the direction it
was called with, and its exchanged demand amount is its transacted amount
converted at the one price it was called with. -/
theorem findOrderMatch_price :
    ∀ (dir : OrderDirection) (orders : List SwapMsgState)
      (executableAmt swapPrice feeRate : ℤ),
      ∀ m ∈ (FindOrderMatch dir orders executableAmt swapPrice feeRate).1,
        m.orderDirection = dir ∧
        m.exchangedDemandCoinAmt =
          exchangedAtPrice dir m.transactedCoinAmt swapPrice := by
  intro dir orders
  induction orders with
  | nil =>
    intro executableAmt swapPrice feeRate m hm
    simp [FindOrderMatch] at hm
  | cons o rest ih =>
    intro executableAmt swapPrice feeRate m hm
    simp only [FindOrderMatch] at hm
    by_cases hl : inLimit dir o.msg.orderPrice swapPrice
    · rw [if_pos hl] at hm
      cases dir <;>
        simp only at hm <;>
        rcases List.mem_cons.mp hm with hh | hh
      · subst hh
        exact ⟨rfl, rfl⟩
      · exact ih _ swapPrice feeRate m hh
      · subst hh
        exact ⟨rfl, rfl⟩
      · exact ih _ swapPrice feeRate m hh
    · rw [if_neg hl] at hm
      exact ih executableAmt swapPrice feeRate m hm

/-- C1: `SwapExecution` feeds the one `result.SwapPrice` from price
discovery into the matcher for both directions (`swapMatchResults`), so every
fill of the batch settles at that single batch swap price: each XtoY fill
receives its transacted amount divided by `result.SwapPrice`, and each YtoX
fill its transacted amount multiplied by `result.SwapPrice`. -/
theorem swapExecution_single_batch_price :
    ∀ (env : SwapEnv),
      (∀ m ∈ (swapMatchResults env).1,
        m.orderDirection = OrderDirection.XtoY ∧
        m.exchangedDemandCoinAmt =
          decQuo m.transactedCoinAmt env.result.swapPrice) ∧
      (∀ m ∈ (swapMatchResults env).2,
        m.orderDirection = OrderDirection.YtoX ∧
        m.exchangedDemandCoinAmt =
          decMul m.transactedCoinAmt env.result.swapPrice) := by
  intro env
  constructor
  · intro m hm
    exact findOrderMatch_price OrderDirection.XtoY env.XtoY env.result.EX
      env.result.swapPrice env.feeRate m hm
  · intro m hm
    exact findOrderMatch_price OrderDirection.YtoX env.YtoX env.result.EY
      env.result.swapPrice env.feeRate m hm

/-- The single match result the spec-modelled matcher produces for
`envMatch`: the full 10.0 remaining of `sampleState` at price 1.0. -/
def mEnvMatch : MatchResult :=
  ⟨0, OrderDirection.XtoY, intToDec 10, decQuo (intToDec 10) (intToDec 1), 0,
    sampleState⟩

/-- C1 witness: the single-price property evaluated on the concrete fill the
matcher produces for `envMatch`. -/
theorem swapExecution_single_batch_price_witness :
    mEnvMatch.orderDirection = OrderDirection.XtoY ∧
    mEnvMatch.exchangedDemandCoinAmt =
      decQuo mEnvMatch.transactedCoinAmt envMatch.result.swapPrice :=
  (swapExecution_single_batch_price envMatch).1 mEnvMatch (by decide)

/-- A panic of the loop body on any XtoY match aborts the whole XtoY loop. -/
theorem processXtoY_none :
    ∀ (l : List MatchResult) (m : MatchResult), m ∈ l → applyMatch m = none →
      processXtoY l = none := by
  intro l
  induction l with
  | nil => intro m hm; cases hm
  | cons a rest ih =>
    intro m hm hA
    simp only [processXtoY]
    rcases List.mem_cons.mp hm with rfl | hmem
    · rw [hA]
    · cases hB : applyMatch a with
      | none => rfl
      | some v =>
        obtain ⟨s, obo, fr⟩ := v
        rw [ih m hmem hA]

/-- A panic of the loop body on any YtoX match aborts the whole YtoX loop. -/
theorem processYtoX_none :
    ∀ (l : List MatchResult) (m : MatchResult), m ∈ l → applyMatch m = none →
      processYtoX l = none := by
  intro l
  induction l with
  | nil => intro m hm; cases hm
  | cons a rest ih =>
    intro m hm hA
    simp only [processYtoX]
    rcases List.mem_cons.mp hm with rfl | hmem
    · rw [hA]
    · cases hB : applyMatch a with
      | none => rfl
      | some v =>
        obtain ⟨s, obo, fr⟩ := v
        rw [ih m hmem hA]

/-- C6: the consensus-fatal violations abort `SwapExecution` with a panic
rather than a returned error.  On a batch that reaches matching (nonempty,
pool found, a match found): a panic inside `UpdateState` surfaces as the
"remaining not matched" panic; a failed validation of the rebuilt order book
at the last price `X'/Y'` panics; a duplicate order message index among the
combined match results panics; a panicking loop body on any match aborts
`UpdateState` itself; and the loop body panics whenever, after the full or
the off-by-one updates, remaining plus exchanged exceeds the original offer,
the remaining offer is nonzero, or the residual reserved fee is at least 2
units. -/
theorem swapExecution_fatal_panics :
    ∀ (env : SwapEnv), env.swapMsgStates ≠ [] → env.poolFound = true →
      env.result.matchType ≠ 0 →
      (UpdateState (intToDec env.reserveX) (intToDec env.reserveY)
          (swapMatchResults env).1 (swapMatchResults env).2 = none →
        (SwapExecution env).1 = SwapOutcome.panic "remaining not matched") ∧
      (∀ r, UpdateState (intToDec env.reserveX) (intToDec env.reserveY)
          (swapMatchResults env).1 (swapMatchResults env).2 = some r →
        env.validateExecuted (decQuo r.X r.Y) = false →
        (SwapExecution env).1 = SwapOutcome.panic "order book invalidity") ∧
      (∀ r, UpdateState (intToDec env.reserveX) (intToDec env.reserveY)
          (swapMatchResults env).1 (swapMatchResults env).2 = some r →
        env.validateExecuted (decQuo r.X r.Y) = true →
        hasDupIndex ((swapMatchResults env).1 ++ (swapMatchResults env).2) [] = true →
        (SwapExecution env).1 = SwapOutcome.panic "duplicated match order") ∧
      (∀ m, (m ∈ (swapMatchResults env).1 ∨ m ∈ (swapMatchResults env).2) →
        applyMatch m = none →
        UpdateState (intToDec env.reserveX) (intToDec env.reserveY)
          (swapMatchResults env).1 (swapMatchResults env).2 = none) ∧
      (∀ m, classifyMatch m = MatchKind.full →
        (CoinSafeSubAmount m.batchMsg.remainingOfferCoin
              (decTruncateInt m.transactedCoinAmt) +
            (m.batchMsg.exchangedOfferCoin + decTruncateInt m.transactedCoinAmt) >
            m.batchMsg.msg.offerCoin ∨
          CoinSafeSubAmount m.batchMsg.remainingOfferCoin
            (decTruncateInt m.transactedCoinAmt) ≠ 0 ∨
          2 ≤ CoinSafeSubAmount m.batchMsg.reservedOfferCoinFee
            (decTruncateInt m.offerCoinFeeAmt)) →
        applyMatch m = none) ∧
      (∀ m, classifyMatch m = MatchKind.offByOne →
        ((if CoinSafeSubAmount m.batchMsg.remainingOfferCoin
              (decTruncateInt m.transactedCoinAmt) = 1 then 0
            else CoinSafeSubAmount m.batchMsg.remainingOfferCoin
              (decTruncateInt m.transactedCoinAmt)) +
            (m.batchMsg.exchangedOfferCoin + decTruncateInt m.transactedCoinAmt) >
            m.batchMsg.msg.offerCoin ∨
          (if CoinSafeSubAmount m.batchMsg.remainingOfferCoin
              (decTruncateInt m.transactedCoinAmt) = 1 then 0
            else CoinSafeSubAmount m.batchMsg.remainingOfferCoin
              (decTruncateInt m.transactedCoinAmt)) ≠ 0 ∨
          2 ≤ CoinSafeSubAmount m.batchMsg.reservedOfferCoinFee
            (decTruncateInt m.offerCoinFeeAmt)) →
        applyMatch m = none) := by
  intro env h1 h2 h3
  have h2f : ¬ env.poolFound = false := by simp [h2]
  refine ⟨?_, ?_, ?_, ?_, ?_, ?_⟩
  · intro hU
    simp only [SwapExecution]
    rw [if_neg h1, if_neg h2f, if_neg h3, hU]
  · intro r hU hv
    simp only [SwapExecution]
    rw [if_neg h1, if_neg h2f, if_neg h3, hU]
    simp [hv]
  · intro r hU hv hd
    simp only [SwapExecution]
    rw [if_neg h1, if_neg h2f, if_neg h3, hU]
    simp [hv, hd]
  · intro m hmem hA
    rcases hmem with hX | hY
    · simp only [UpdateState]
      rw [processXtoY_none _ m hX hA]
    · simp only [UpdateState]
      cases hPX : processXtoY (swapMatchResults env).1 with
      | none => rfl
      | some v =>
        obtain ⟨a, b, c, d, e⟩ := v
        rw [processYtoX_none _ m hY hA]
  · intro m hcl hviol
    simp only [applyMatch, hcl]
    rw [if_pos hviol]
  · intro m hcl hviol
    simp only [applyMatch, hcl]
    rw [if_pos hviol]

/-- An order state that violates conservation before settlement: 5 units
already exchanged yet 10 still remaining out of an original offer of 10. -/
def sViol : SwapMsgState :=
  ⟨0, false, false, false, 100, 5, 10, 1, ⟨10, intToDec 2⟩⟩

/-- An environment whose single XtoY order `sViol` fully matches but fails
the full-match consistency check inside `UpdateState`. -/
def envViol : SwapEnv :=
  ⟨[sViol], true, 1000, 1000, [sViol], [],
    ⟨1, intToDec 1, intToDec 10, 0⟩, 0, fun _ => true, true, [], 1000, 1000⟩

/-- C6 witness: on `envViol` the full-match consistency violation makes
`SwapExecution` abort with the "remaining not matched" panic. -/
theorem swapExecution_fatal_panics_witness :
    (SwapExecution envViol).1 = SwapOutcome.panic "remaining not matched" := by
  have h := swapExecution_fatal_panics envViol (by decide) rfl (by decide)
  exact h.1 (by decide)
